import Mathlib

/-!
# Verification of the nuScenes-SR dataloader

Shallow embedding of `dataloader.py` (`NuScenesSRDataloader`) and proofs of
the spec's claims about it.

Modelling conventions:
* A loaded corpus (`self.data`, a JSON object = Python dict) is an ordered
  association list of `(scene_token, record)` pairs with unique keys;
  `self.scene_tokens = list(self.data.keys())` is its key sequence.
* Python's global `random` module is modelled by explicit state passing: an
  abstract state type `σ`, a re-seeding function `seedFn` (models
  `random.seed(s)`), and state-dependent draw/shuffle functions.  Facts the
  RNG guarantees (`random.shuffle` permutes, `random.sample` picks distinct
  elements) become hypotheses of the theorems.
* Python floats are idealised as rationals (`ℚ`); `int(x)` is truncation
  toward zero; list slicing `l[a:b]` keeps Python's negative-index and
  clamping semantics (`pySlice`).
* `raise ValueError(...)` becomes `Except.error` with a structured payload
  recording what the message interpolates.
-/

namespace NuScenesSR

/-- One scene record as stored in the JSON document: a list of label strings
and a free-text description. -/
structure SceneRecord where
  labels : List String
  description : String
deriving DecidableEq

/-- `DYNAMIC_SCENES` from the source. -/
def DYNAMIC_SCENES : List String :=
  ["PED_CROSSING", "LEFT_TURN", "RIGHT_TURN", "CONSTRUCTION_VEHICLE",
   "AVOID_STATIONARY"]

/-- `STATIC_SCENES` from the source. -/
def STATIC_SCENES : List String :=
  ["INTERSECTION", "PARKING_LOT", "TRAFFIC_LIGHT", "RAINY_WEATHER",
   "CONSTRUCTION_ZONE"]

/-- `ALL_SCENES = DYNAMIC_SCENES + STATIC_SCENES`. -/
def ALL_SCENES : List String := DYNAMIC_SCENES ++ STATIC_SCENES

/-- The loaded corpus `self.data`: ordered `(token, record)` pairs. -/
abbrev Corpus := List (String × SceneRecord)

/-- `self.scene_tokens = list(self.data.keys())`. -/
def scene_tokens (c : Corpus) : List String := c.map Prod.fst

/-- Dict lookup `self.data[token]` / `self.data.get(token)`. -/
def lookupRecord (c : Corpus) (t : String) : Option SceneRecord := c.lookup t

/-- Structured payloads of the `ValueError`s the dataloader raises:
`invalidLabelError` records the offending label and the valid set (the
message `f"Invalid label: \x7blabel\x7d. Must be one of \x7bALL_SCENES\x7d"`);
`invalidRatioError` records the message `"Ratios must sum to 1.0"`. -/
inductive LoaderError where
  | invalidLabelError (offending : String) (valid : List String)
  | invalidRatioError (msg : String)
deriving DecidableEq

/-- `get_scenes_by_label`: validate the label against `ALL_SCENES`, then keep
the `(token, data)` pairs with `label in data["labels"]`, in corpus order. -/
def get_scenes_by_label (c : Corpus) (label : String) :
    Except LoaderError Corpus :=
  if label ∈ ALL_SCENES then
    .ok (c.filter (fun td => decide (label ∈ td.2.labels)))
  else
    .error (.invalidLabelError label ALL_SCENES)

/-- `get_scenes_by_labels`: raise on the first label outside `ALL_SCENES`;
otherwise keep pairs by mode — `"any"`: `set(data["labels"])` intersects
`set(labels)`; `"all"`: `set(labels)` is a subset of `set(data["labels"])`;
any other mode string matches nothing. -/
def get_scenes_by_labels (c : Corpus) (labels : List String)
    (mode : String) : Except LoaderError Corpus :=
  match labels.find? (fun l => decide (l ∉ ALL_SCENES)) with
  | some bad => .error (.invalidLabelError bad ALL_SCENES)
  | none =>
      .ok (c.filter (fun td =>
        if mode = "any" then labels.any (fun l => decide (l ∈ td.2.labels))
        else if mode = "all" then
          labels.all (fun l => decide (l ∈ td.2.labels))
        else false))

/-- All label occurrences across the corpus, in iteration order (what the
`Counter` in `get_label_statistics` tallies). -/
def all_label_occurrences (c : Corpus) : List String :=
  (c.map (fun td => td.2.labels)).flatten

/-- `get_label_statistics`: label → number of occurrences over all records
(a `Counter` over every element of every `data["labels"]`). -/
def get_label_statistics (c : Corpus) : String → Nat :=
  fun l => (all_label_occurrences c).count l

/-- `get_multi_label_statistics`: number-of-labels → number of records with
that many labels. -/
def get_multi_label_statistics (c : Corpus) : Nat → Nat :=
  fun k => (c.map (fun td => td.2.labels.length)).count k

/-- `random.seed` semantics: a provided seed resets the RNG state via
`seedFn`, ignoring the incoming state; no seed leaves the state as-is. -/
def seededState {σ : Type} (seedFn : Nat → σ) (st : σ) (seed : Option Nat) :
    σ :=
  match seed with
  | some s => seedFn s
  | none => st

/-- Normalise one Python slice index for a sequence of length `n`:
negative indices count from the end and clamp at `0`; nonnegative indices
clamp at `n`. -/
def pyIdx (n : Nat) (i : Int) : Nat :=
  if i < 0 then ((n : Int) + i).toNat else min i.toNat n

/-- Python slice `l[a:b]`. -/
def pySlice {α : Type} (l : List α) (a b : Int) : List α :=
  (l.drop (pyIdx l.length a)).take (pyIdx l.length b - pyIdx l.length a)

/-- Python `int()` on a rational: truncation toward zero. -/
def pyTrunc (q : ℚ) : Int := if 0 ≤ q then ⌊q⌋ else ⌈q⌉

/-- Core of `split_dataset`, after the shuffle: validate that the ratios sum
to `1.0` within `1e-6`, then slice the shuffled token list at
`train_end = int(total * train_ratio)` and
`val_end = train_end + int(total * val_ratio)` —
`shuffled[:train_end]`, `shuffled[train_end:val_end]`, `shuffled[val_end:]`. -/
def split_tokens (shuffled : List String) (trainR valR testR : ℚ) :
    Except LoaderError (List String × List String × List String) :=
  if 1/1000000 < |trainR + valR + testR - 1| then
    .error (.invalidRatioError "Ratios must sum to 1.0")
  else
    let total : ℚ := (shuffled.length : ℚ)
    let train_end : Int := pyTrunc (total * trainR)
    let val_end : Int := train_end + pyTrunc (total * valR)
    .ok (pySlice shuffled 0 train_end,
         pySlice shuffled train_end val_end,
         shuffled.drop (pyIdx shuffled.length val_end))

/-- `split_dataset`: seed the RNG if a seed is given, shuffle a copy of
`self.scene_tokens` (`shuffleFn` models `random.shuffle`), then slice. -/
def split_dataset {σ : Type} (shuffleFn : σ → List String → List String)
    (seedFn : Nat → σ) (st : σ) (seed : Option Nat) (c : Corpus)
    (trainR valR testR : ℚ) :
    Except LoaderError (List String × List String × List String) :=
  split_tokens (shuffleFn (seededState seedFn st seed) (scene_tokens c))
    trainR valR testR

/-- `sample_scenes`: seed if given, draw
`random.sample(self.scene_tokens, min(n, len(self.scene_tokens)))`
(`drawFn` models `random.sample`), and pair each drawn token with its
record. -/
def sample_scenes {σ : Type} (drawFn : σ → List String → Nat → List String)
    (seedFn : Nat → σ) (st : σ) (seed : Option Nat) (c : Corpus) (n : Nat) :
    List (String × SceneRecord) :=
  let sample_toks :=
    drawFn (seededState seedFn st seed) (scene_tokens c)
      (min n (scene_tokens c).length)
  sample_toks.filterMap (fun t => (lookupRecord c t).map (fun r => (t, r)))

/-- Python dict assignment `d[k] = v`: overwrite in place if the key exists,
else append. -/
def dict_insert (d : List (String × List String)) (k : String)
    (v : List String) : List (String × List String) :=
  if d.any (fun p => p.1 == k) then
    d.map (fun p => if p.1 == k then (k, v) else p)
  else d ++ [(k, v)]

/-- `export_labels_only` (the exported mapping, file I/O elided): default the
token list to all of `self.scene_tokens`, then build `labels_only` by
iterating the requested tokens and, for each token present in `self.data`,
assigning `labels_only[token] = self.data[token]["labels"]`. -/
def export_labels_only (c : Corpus) (toks : Option (List String)) :
    List (String × List String) :=
  (toks.getD (scene_tokens c)).foldl
    (fun d t =>
      match lookupRecord c t with
      | some r => dict_insert d t r.labels
      | none => d)
    []

/-- The two-record corpus from the spec's concrete scenario. -/
def exCorpus : Corpus :=
  [("a", ⟨["PED_CROSSING"], "x"⟩),
   ("b", ⟨["INTERSECTION", "TRAFFIC_LIGHT"], "y"⟩)]

/-! ## Helper lemmas -/

lemma pyTrunc_of_nonneg {q : ℚ} (h : 0 ≤ q) : pyTrunc q = ⌊q⌋ := by
  unfold pyTrunc
  exact if_pos h

lemma pyTrunc_nonneg {q : ℚ} (h : 0 ≤ q) : 0 ≤ pyTrunc q := by
  rw [pyTrunc_of_nonneg h]
  exact Int.le_floor.mpr (by simpa)

lemma pyIdx_zero (n : Nat) : pyIdx n 0 = 0 := by
  simp [pyIdx]

lemma pyIdx_of_nonneg {i : Int} (n : Nat) (h : 0 ≤ i) :
    pyIdx n i = min i.toNat n := by
  unfold pyIdx
  rw [if_neg (by omega)]

lemma pyIdx_mono_of_nonneg {i j : Int} (n : Nat) (hi : 0 ≤ i) (hij : i ≤ j) :
    pyIdx n i ≤ pyIdx n j := by
  rw [pyIdx_of_nonneg n hi, pyIdx_of_nonneg n (le_trans hi hij)]
  exact min_le_min (by omega) (le_refl n)

/-- The three slices `l[:a]`, `l[a:b]`, `l[b:]` concatenate back to `l`
whenever `0 ≤ a ≤ b`. -/
lemma slice3_append {α : Type} (l : List α) (a b : Int) (ha : 0 ≤ a)
    (hab : a ≤ b) :
    pySlice l 0 a ++ pySlice l a b ++ l.drop (pyIdx l.length b) = l := by
  unfold pySlice
  rw [pyIdx_zero]
  have hmono : pyIdx l.length a ≤ pyIdx l.length b :=
    pyIdx_mono_of_nonneg l.length ha hab
  have hdrop : l.drop (pyIdx l.length b)
      = (l.drop (pyIdx l.length a)).drop (pyIdx l.length b - pyIdx l.length a) := by
    have hb : pyIdx l.length a + (pyIdx l.length b - pyIdx l.length a)
        = pyIdx l.length b := by omega
    rw [List.drop_drop, hb]
  rw [hdrop, List.drop_zero, Nat.sub_zero, List.append_assoc,
    List.take_append_drop, List.take_append_drop]

lemma lookup_cons_ne {β : Type} (p : String × β) (rest : List (String × β))
    {t : String} (hp : t ≠ p.1) :
    List.lookup t (p :: rest) = List.lookup t rest := by
  have hbeq : (t == p.1) = false := beq_eq_false_iff_ne.mpr hp
  cases p
  simp only [List.lookup, hbeq]

lemma lookup_cons_eq {β : Type} (p : String × β) (rest : List (String × β)) :
    List.lookup p.1 (p :: rest) = some p.2 := by
  cases p
  simp [List.lookup]

lemma lookupRecord_of_mem_keys {c : Corpus} {t : String}
    (h : t ∈ scene_tokens c) : ∃ r, lookupRecord c t = some r := by
  induction c with
  | nil => simp [scene_tokens] at h
  | cons p rest ih =>
      by_cases hp : t = p.1
      · subst hp
        exact ⟨p.2, by simpa [lookupRecord] using lookup_cons_eq p rest⟩
      · have hmem : t ∈ scene_tokens rest := by
          simp only [scene_tokens, List.map_cons, List.mem_cons] at h
          exact h.resolve_left hp
        obtain ⟨r, hr⟩ := ih hmem
        exact ⟨r, by simpa [lookupRecord, lookup_cons_ne p rest hp] using hr⟩

lemma mem_keys_of_lookupRecord {c : Corpus} {t : String} {r : SceneRecord}
    (h : lookupRecord c t = some r) : t ∈ scene_tokens c := by
  induction c with
  | nil => simp [lookupRecord, List.lookup] at h
  | cons p rest ih =>
      by_cases hp : t = p.1
      · simp [scene_tokens, hp]
      · rw [lookupRecord, lookup_cons_ne p rest hp] at h
        simp only [scene_tokens, List.map_cons, List.mem_cons]
        exact Or.inr (ih h)

lemma subperm_nodup {α : Type} {l₁ l₂ : List α} (h : List.Subperm l₁ l₂)
    (hnd : l₂.Nodup) : l₁.Nodup := by
  obtain ⟨l, hperm, hsub⟩ := h
  exact hperm.nodup_iff.mp (hnd.sublist hsub)

/-- Pairing drawn tokens with their records keeps exactly the token list
when every token is a corpus key. -/
lemma filterMap_pair_fst {c : Corpus} {ts : List String}
    (h : ∀ t ∈ ts, t ∈ scene_tokens c) :
    (ts.filterMap (fun t => (lookupRecord c t).map (fun r => (t, r)))).map
      Prod.fst = ts := by
  induction ts with
  | nil => rfl
  | cons t rest ih =>
      obtain ⟨r, hr⟩ := lookupRecord_of_mem_keys (h t (by simp))
      rw [List.filterMap_cons, hr]
      simpa using ih (fun u hu => h u (by simp [hu]))

lemma pyTrunc_intCast (n : ℤ) : pyTrunc ((n : ℚ)) = n := by
  unfold pyTrunc
  split <;> simp

/-- Evaluate `split_tokens` once the validation outcome and the two cut
points are known. -/
lemma split_tokens_eval (shuffled : List String) (a b d : ℚ)
    (hvalid : ¬ (1/1000000 < |a + b + d - 1|)) (tA tB : Int)
    (hA : pyTrunc ((shuffled.length : ℚ) * a) = tA)
    (hB : tA + pyTrunc ((shuffled.length : ℚ) * b) = tB) :
    split_tokens shuffled a b d
      = .ok (pySlice shuffled 0 tA, pySlice shuffled tA tB,
          shuffled.drop (pyIdx shuffled.length tB)) := by
  simp only [split_tokens, if_neg hvalid]
  rw [hA, hB]

/-! ## Claims about the splitter -/

/-- C1 (amended): for every corpus with distinct tokens, every shuffle
outcome (any permutation of the token list), and every ratio triple with
nonnegative train/val ratios that passes validation, `split_dataset`
partitions the token set exactly: the three slices are pairwise disjoint,
their union is the full token set, and their lengths sum to the corpus
size. -/
theorem split_is_partition {σ : Type}
    (shuffleFn : σ → List String → List String) (seedFn : Nat → σ) (st : σ)
    (seed : Option Nat) (c : Corpus) (trainR valR testR : ℚ)
    (hshuffle : (shuffleFn (seededState seedFn st seed) (scene_tokens c)).Perm
      (scene_tokens c))
    (hnd : (scene_tokens c).Nodup)
    (htrain : 0 ≤ trainR) (hval : 0 ≤ valR)
    (hvalid : ¬ (1/1000000 < |trainR + valR + testR - 1|)) :
    ∃ train val test,
      split_dataset shuffleFn seedFn st seed c trainR valR testR
        = .ok (train, val, test)
      ∧ train.length + val.length + test.length = c.length
      ∧ train.Disjoint val ∧ train.Disjoint test ∧ val.Disjoint test
      ∧ (∀ t, (t ∈ train ∨ t ∈ val ∨ t ∈ test) ↔ t ∈ scene_tokens c) := by
  set sh := shuffleFn (seededState seedFn st seed) (scene_tokens c) with hsh
  set tA : Int := pyTrunc ((sh.length : ℚ) * trainR) with htA
  set tB : Int := tA + pyTrunc ((sh.length : ℚ) * valR) with htB
  have hA : 0 ≤ tA := pyTrunc_nonneg (mul_nonneg (by positivity) htrain)
  have hAB : tA ≤ tB :=
    le_add_of_nonneg_right (pyTrunc_nonneg (mul_nonneg (by positivity) hval))
  refine ⟨pySlice sh 0 tA, pySlice sh tA tB, sh.drop (pyIdx sh.length tB),
    split_tokens_eval sh trainR valR testR hvalid tA tB rfl rfl, ?_⟩
  have happ : pySlice sh 0 tA ++ pySlice sh tA tB
      ++ sh.drop (pyIdx sh.length tB) = sh := slice3_append sh tA tB hA hAB
  have hperm : (pySlice sh 0 tA ++ (pySlice sh tA tB
      ++ sh.drop (pyIdx sh.length tB))).Perm (scene_tokens c) := by
    rw [← List.append_assoc, happ]
    exact hshuffle
  have hlen : (pySlice sh 0 tA).length + ((pySlice sh tA tB).length
      + (sh.drop (pyIdx sh.length tB)).length) = c.length := by
    have := hperm.length_eq
    simp only [List.length_append] at this
    simpa [scene_tokens] using this
  have hnodup : (pySlice sh 0 tA ++ (pySlice sh tA tB
      ++ sh.drop (pyIdx sh.length tB))).Nodup := hperm.nodup_iff.mpr hnd
  rw [List.nodup_append] at hnodup
  obtain ⟨h₁, hrest, hdisj₁⟩ := hnodup
  rw [List.nodup_append] at hrest
  obtain ⟨h₂, h₃, hdisj₂⟩ := hrest
  rw [List.disjoint_append_right] at hdisj₁
  refine ⟨by omega, hdisj₁.1, hdisj₁.2, hdisj₂, ?_⟩
  intro t
  rw [← hperm.mem_iff]
  simp [List.mem_append, or_assoc]

/-- C1 (counterexample): the two-token example corpus, the identity shuffle,
and the ratio triple `(-0.5, 0.5, 1.0)` — which passes validation since it
sums to `1.0` exactly — produce the "split" `(["a"], [], ["a", "b"])`: token
`"a"` occurs twice, the lengths sum to `3 ≠ 2`, and train and test are not
disjoint. -/
theorem split_is_partition_counterexample :
    ¬ (1/1000000 < |(-1/2 : ℚ) + 1/2 + 1 - 1|)
    ∧ split_dataset (fun (_ : Unit) l => l) (fun _ => ()) () (some 1)
        exCorpus (-1/2) (1/2) 1 = .ok (["a"], [], ["a", "b"])
    ∧ ((["a"] : List String).length + ([] : List String).length
        + (["a", "b"] : List String).length ≠ exCorpus.length)
    ∧ ¬ (["a"] : List String).Disjoint ["a", "b"] := by
  have hvalid : ¬ ((1:ℚ)/1000000 < |(-1/2 : ℚ) + 1/2 + 1 - 1|) := by norm_num
  refine ⟨hvalid, ?_, by decide,
    fun h => h (show "a" ∈ (["a"] : List String) by simp)
      (show "a" ∈ (["a", "b"] : List String) by simp)⟩
  show split_tokens (scene_tokens exCorpus) (-1/2) (1/2) 1 = _
  have hA : pyTrunc (((scene_tokens exCorpus).length : ℚ) * (-1/2)) = -1 := by
    rw [show (((scene_tokens exCorpus).length : ℚ) * (-1/2))
      = ((-1 : ℤ) : ℚ) by norm_num [scene_tokens, exCorpus]]
    exact pyTrunc_intCast (-1)
  have hB : (-1 : ℤ) + pyTrunc (((scene_tokens exCorpus).length : ℚ) * (1/2))
      = 0 := by
    rw [show (((scene_tokens exCorpus).length : ℚ) * (1/2))
      = ((1 : ℤ) : ℚ) by norm_num [scene_tokens, exCorpus]]
    rw [pyTrunc_intCast 1]
    norm_num
  rw [split_tokens_eval (scene_tokens exCorpus) (-1/2) (1/2) 1 hvalid (-1) 0
    hA hB]
  rfl

/-- C2: `split_dataset` with the same seed, the same ratios, and the same
corpus returns identical `(train, val, test)` triples on any two calls, no
matter what RNG states the two calls start from (seeding resets the
state). -/
theorem split_deterministic {σ : Type}
    (shuffleFn : σ → List String → List String) (seedFn : Nat → σ)
    (st₁ st₂ : σ) (s : Nat) (c : Corpus) (trainR valR testR : ℚ) :
    split_dataset shuffleFn seedFn st₁ (some s) c trainR valR testR
      = split_dataset shuffleFn seedFn st₂ (some s) c trainR valR testR :=
  rfl

/-- C5 (amended): for ratio triples that pass validation and have
nonnegative train/val ratios, `split_tokens` cuts the shuffled sequence at
`trainEnd = ⌊total * trainRatio⌋` and
`valEnd = trainEnd + ⌊total * valRatio⌋`, the test set taking the remainder
`[valEnd, total)`; and `split(0.5, 0.5, 0.0)` on any 2-token shuffled
sequence yields the size tuple `(1, 1, 0)`.  (In general the code truncates
toward zero, which equals the floor only for nonnegative products.) -/
theorem split_floor_slicing :
    (∀ (shuffled : List String) (a b d : ℚ), 0 ≤ a → 0 ≤ b →
      ¬ (1/1000000 < |a + b + d - 1|) →
      split_tokens shuffled a b d
        = .ok (pySlice shuffled 0 ⌊(shuffled.length : ℚ) * a⌋,
            pySlice shuffled ⌊(shuffled.length : ℚ) * a⌋
              (⌊(shuffled.length : ℚ) * a⌋ + ⌊(shuffled.length : ℚ) * b⌋),
            shuffled.drop (pyIdx shuffled.length
              (⌊(shuffled.length : ℚ) * a⌋ + ⌊(shuffled.length : ℚ) * b⌋))))
    ∧ (∀ shuffled : List String, shuffled.length = 2 →
      ∃ train val test,
        split_tokens shuffled (1/2) (1/2) 0 = .ok (train, val, test)
          ∧ train.length = 1 ∧ val.length = 1 ∧ test.length = 0) := by
  constructor
  · intro shuffled a b d ha hb hvalid
    exact split_tokens_eval shuffled a b d hvalid _ _
      (pyTrunc_of_nonneg (mul_nonneg (by positivity) ha))
      (by rw [pyTrunc_of_nonneg (mul_nonneg (by positivity) hb)])
  · intro shuffled hlen
    have hvalid : ¬ ((1:ℚ)/1000000 < |(1/2 : ℚ) + 1/2 + 0 - 1|) := by
      norm_num
    have hA : pyTrunc ((shuffled.length : ℚ) * (1/2)) = 1 := by
      rw [show ((shuffled.length : ℚ) * (1/2)) = ((1 : ℤ) : ℚ) by
        rw [hlen]; norm_num]
      exact pyTrunc_intCast 1
    refine ⟨pySlice shuffled 0 1, pySlice shuffled 1 2,
      shuffled.drop (pyIdx shuffled.length 2),
      split_tokens_eval shuffled (1/2) (1/2) 0 hvalid 1 2 hA
        (by rw [hA]; norm_num), ?_, ?_, ?_⟩
    · simp [pySlice, pyIdx, hlen, List.length_take]
    · simp [pySlice, pyIdx, hlen, List.length_take, List.length_drop]
    · simp [pyIdx, hlen, List.length_drop]

/-- C5 (counterexample): on a 2-token sequence with the validation-passing
triple `(-0.25, 0.25, 1.0)`, the code's `int()` truncation toward zero gives
`train_end = int(-0.5) = 0` and an empty train slice, while the claim's
`trainEnd = ⌊2 * (-0.25)⌋ = -1` would slice `l[:-1] = ["a"]`. -/
theorem split_floor_slicing_counterexample :
    ¬ (1/1000000 < |(-1/4 : ℚ) + 1/4 + 1 - 1|)
    ∧ split_tokens ["a", "b"] (-1/4) (1/4) 1 = .ok ([], [], ["a", "b"])
    ∧ pySlice ["a", "b"] 0 ⌊((["a", "b"] : List String).length : ℚ) * (-1/4)⌋
        = ["a"]
    ∧ (([] : List String) ≠ ["a"]) := by
  have hvalid : ¬ ((1:ℚ)/1000000 < |(-1/4 : ℚ) + 1/4 + 1 - 1|) := by norm_num
  have hfloor : ⌊((["a", "b"] : List String).length : ℚ) * (-1/4)⌋ = -1 := by
    rw [show (((["a", "b"] : List String).length : ℚ) * (-1/4))
      = (-1/2 : ℚ) by norm_num]
    rw [Int.floor_eq_iff]; norm_num
  have hA : pyTrunc (((["a", "b"] : List String).length : ℚ) * (-1/4)) = 0 := by
    rw [show (((["a", "b"] : List String).length : ℚ) * (-1/4))
      = (-1/2 : ℚ) by norm_num]
    unfold pyTrunc
    rw [if_neg (by norm_num)]
    rw [Int.ceil_eq_iff]; norm_num
  have hB : (0 : ℤ) + pyTrunc (((["a", "b"] : List String).length : ℚ) * (1/4))
      = 0 := by
    rw [show (((["a", "b"] : List String).length : ℚ) * (1/4))
      = (1/2 : ℚ) by norm_num]
    rw [pyTrunc_of_nonneg (by norm_num)]
    rw [show ⌊(1/2 : ℚ)⌋ = 0 by rw [Int.floor_eq_iff]; norm_num]
    norm_num
  refine ⟨hvalid, ?_, by rw [hfloor]; rfl, by simp⟩
  rw [split_tokens_eval ["a", "b"] (-1/4) (1/4) 1 hvalid 0 0 hA hB]
  rfl

/-- C6: `split_dataset` fails with the invalid-ratio error exactly when the
three ratios sum to something farther than `1e-6` from `1.0`; within the
tolerance it returns a (full) split and never an error. -/
theorem split_ratio_validation {σ : Type}
    (shuffleFn : σ → List String → List String) (seedFn : Nat → σ) (st : σ)
    (seed : Option Nat) (c : Corpus) (a b d : ℚ) :
    (1/1000000 < |a + b + d - 1| →
      split_dataset shuffleFn seedFn st seed c a b d
        = .error (.invalidRatioError "Ratios must sum to 1.0"))
    ∧ (¬ (1/1000000 < |a + b + d - 1|) →
      ∃ res, split_dataset shuffleFn seedFn st seed c a b d = .ok res)
    ∧ (∀ e, split_dataset shuffleFn seedFn st seed c a b d = .error e →
      1/1000000 < |a + b + d - 1|) := by
  by_cases h : 1/1000000 < |a + b + d - 1|
  · refine ⟨fun _ => ?_, fun h' => absurd h h', fun e _ => h⟩
    simp only [split_dataset, split_tokens, if_pos h]
  · refine ⟨fun h' => absurd h' h,
      fun _ => ⟨_, split_tokens_eval _ a b d h _ _ rfl rfl⟩,
      fun e he => ?_⟩
    · rw [split_dataset,
        split_tokens_eval _ a b d h _ _ rfl rfl] at he
      exact absurd he (by simp)

/-! ## Claims about the label queries -/

lemma any_eq_decide_exists (L labels' : List String) :
    (L.any fun l => decide (l ∈ labels')) = decide (∃ l ∈ L, l ∈ labels') := by
  cases h : decide (∃ l ∈ L, l ∈ labels') with
  | true =>
      rw [List.any_eq_true]
      obtain ⟨l, hl, hmem⟩ := of_decide_eq_true h
      exact ⟨l, hl, decide_eq_true hmem⟩
  | false =>
      rw [List.any_eq_false]
      intro x hx hc
      exact (of_decide_eq_false h) ⟨x, hx, of_decide_eq_true hc⟩

lemma all_eq_decide_forall (L labels' : List String) :
    (L.all fun l => decide (l ∈ labels')) = decide (∀ l ∈ L, l ∈ labels') := by
  cases h : decide (∀ l ∈ L, l ∈ labels') with
  | true =>
      rw [List.all_eq_true]
      intro x hx
      exact decide_eq_true (of_decide_eq_true h x hx)
  | false =>
      rw [← Bool.not_eq_true, List.all_eq_true]
      intro hall
      exact (of_decide_eq_false h) fun x hx => of_decide_eq_true (hall x hx)

lemma find_invalid_none {L : List String}
    (hvalid : ∀ l ∈ L, l ∈ ALL_SCENES) :
    L.find? (fun l => decide (l ∉ ALL_SCENES)) = none := by
  rw [List.find?_eq_none]
  intro x hx
  simpa using hvalid x hx

/-- C3: with every supplied label valid, mode `"any"` returns exactly the
records whose label set intersects the supplied set (non-empty
intersection) and mode `"all"` exactly those whose label set is a superset,
both in corpus order (a filter of the corpus); the empty list of labels
matches every record under `"all"` and none under `"any"`. -/
theorem scenes_by_labels_semantics (c : Corpus) (L : List String)
    (hvalid : ∀ l ∈ L, l ∈ ALL_SCENES) :
    get_scenes_by_labels c L "any"
        = .ok (c.filter (fun td => decide (∃ l ∈ L, l ∈ td.2.labels)))
    ∧ get_scenes_by_labels c L "all"
        = .ok (c.filter (fun td => decide (∀ l ∈ L, l ∈ td.2.labels)))
    ∧ (L = [] → get_scenes_by_labels c L "all" = .ok c
        ∧ get_scenes_by_labels c L "any" = .ok []) := by
  have hfind := find_invalid_none hvalid
  refine ⟨?_, ?_, ?_⟩
  · simp only [get_scenes_by_labels, hfind]
    congr 1
    refine List.filter_congr fun td _ => ?_
    rw [if_pos trivial]
    exact any_eq_decide_exists L td.2.labels
  · simp only [get_scenes_by_labels, hfind]
    congr 1
    refine List.filter_congr fun td _ => ?_
    rw [if_pos trivial]
    exact all_eq_decide_forall L td.2.labels
  · rintro rfl
    constructor
    · simp only [get_scenes_by_labels, hfind]
      simp
    · simp only [get_scenes_by_labels, hfind]
      simp

/-- C4: the single-label query fails with the invalid-label error — naming
the offending value and the valid set — exactly when the label is outside
`ALL_SCENES`; for a valid label it returns the corpus-order filter of the
records whose label list contains the label. -/
theorem scenes_by_label_spec (c : Corpus) (label : String) :
    (label ∉ ALL_SCENES →
      get_scenes_by_label c label
        = .error (.invalidLabelError label ALL_SCENES))
    ∧ (label ∈ ALL_SCENES →
      get_scenes_by_label c label
        = .ok (c.filter (fun td => decide (label ∈ td.2.labels))))
    ∧ (∀ e, get_scenes_by_label c label = .error e → label ∉ ALL_SCENES)
    ∧ (∀ res, get_scenes_by_label c label = .ok res →
      label ∈ ALL_SCENES) := by
  by_cases h : label ∈ ALL_SCENES
  · refine ⟨fun h' => absurd h h', fun _ => ?_, fun e he => ?_,
      fun res _ => h⟩
    · rw [get_scenes_by_label, if_pos h]
    · rw [get_scenes_by_label, if_pos h] at he
      exact absurd he (by simp)
  · refine ⟨fun _ => ?_, fun h' => absurd h' h, fun e _ => h,
      fun res hres => ?_⟩
    · rw [get_scenes_by_label, if_neg h]
    · rw [get_scenes_by_label, if_neg h] at hres
      exact absurd hres (by simp)

/-- C10: a mode string other than the exact `"any"` or `"all"` (for example
the upper-case spellings) raises no error and simply matches no record:
the result is `ok []`. -/
theorem scenes_by_labels_unknown_mode (c : Corpus) (L : List String)
    (mode : String) (hvalid : ∀ l ∈ L, l ∈ ALL_SCENES)
    (hany : mode ≠ "any") (hall : mode ≠ "all") :
    get_scenes_by_labels c L mode = .ok [] := by
  have hfind := find_invalid_none hvalid
  simp only [get_scenes_by_labels, hfind, if_neg hany, if_neg hall]
  simp

/-! ## Claims about the sampler and the statistics -/

/-- C7: provided the RNG draw returns `min(n, corpusSize)` distinct elements
of the token list (the contract of `random.sample`), `sample_scenes` returns
exactly `min(n, corpusSize)` pairs with pairwise distinct tokens, each token
a corpus key paired with its own record; two calls with the same seed agree
whatever states they start from; and `n > corpusSize` yields exactly
`corpusSize` items. -/
theorem sample_scenes_spec {σ : Type}
    (drawFn : σ → List String → Nat → List String) (seedFn : Nat → σ)
    (st₁ st₂ : σ) (s : Nat) (c : Corpus) (n : Nat)
    (hnd : (scene_tokens c).Nodup)
    (hlen : (drawFn (seedFn s) (scene_tokens c)
      (min n (scene_tokens c).length)).length
        = min n (scene_tokens c).length)
    (hsub : List.Subperm
      (drawFn (seedFn s) (scene_tokens c) (min n (scene_tokens c).length))
      (scene_tokens c)) :
    (sample_scenes drawFn seedFn st₁ (some s) c n).length
        = min n (scene_tokens c).length
    ∧ ((sample_scenes drawFn seedFn st₁ (some s) c n).map Prod.fst).Nodup
    ∧ (∀ p ∈ sample_scenes drawFn seedFn st₁ (some s) c n,
        p.1 ∈ scene_tokens c ∧ lookupRecord c p.1 = some p.2)
    ∧ sample_scenes drawFn seedFn st₁ (some s) c n
        = sample_scenes drawFn seedFn st₂ (some s) c n
    ∧ ((scene_tokens c).length < n →
        (sample_scenes drawFn seedFn st₁ (some s) c n).length
          = (scene_tokens c).length) := by
  set drawn :=
    drawFn (seedFn s) (scene_tokens c) (min n (scene_tokens c).length)
    with hdrawn
  have hmem : ∀ t ∈ drawn, t ∈ scene_tokens c := fun t ht => hsub.subset ht
  have hres : sample_scenes drawFn seedFn st₁ (some s) c n
      = drawn.filterMap
        (fun t => (lookupRecord c t).map (fun r => (t, r))) := rfl
  have hfst : (sample_scenes drawFn seedFn st₁ (some s) c n).map Prod.fst
      = drawn := by
    rw [hres]
    exact filterMap_pair_fst hmem
  have hlength : (sample_scenes drawFn seedFn st₁ (some s) c n).length
      = min n (scene_tokens c).length := by
    have := congrArg List.length hfst
    rw [List.length_map] at this
    rw [this, hlen]
  refine ⟨hlength, ?_, ?_, rfl, fun hlt => ?_⟩
  · rw [hfst]
    exact subperm_nodup hsub hnd
  · intro p hp
    rw [hres] at hp
    obtain ⟨a, ha, hfa⟩ := List.mem_filterMap.mp hp
    obtain ⟨r, hr, hpr⟩ := Option.map_eq_some'.mp hfa
    subst hpr
    exact ⟨hmem a ha, hr⟩
  · rw [hlength]
    exact min_eq_right (le_of_lt hlt)

/-- C8: the occurrence counts of `get_label_statistics`, summed over the
distinct labels that occur (unknown labels included, counted as-is), equal
the sum over all records of the length of the record's label list. -/
theorem label_statistics_sum (c : Corpus) :
    ∑ l ∈ (all_label_occurrences c).toFinset, get_label_statistics c l
      = (c.map (fun td => td.2.labels.length)).sum := by
  unfold get_label_statistics
  rw [List.sum_toFinset_count_eq_length, all_label_occurrences,
    List.length_flatten, List.map_map]
  rfl

/-! ## Claims about the exporter -/

lemma export_foldl_eq (c : Corpus) (ts : List String)
    (acc : List (String × List String)) (hts : ts.Nodup)
    (hacc : ∀ t ∈ ts, ∀ p ∈ acc, p.1 ≠ t) :
    ts.foldl (fun d t =>
        match lookupRecord c t with
        | some r => dict_insert d t r.labels
        | none => d) acc
      = acc ++ ts.filterMap
          (fun t => (lookupRecord c t).map (fun r => (t, r.labels))) := by
  induction ts generalizing acc with
  | nil => simp
  | cons t rest ih =>
      have hrest : rest.Nodup := (List.nodup_cons.mp hts).2
      have hnotmem : t ∉ rest := (List.nodup_cons.mp hts).1
      rw [List.foldl_cons, List.filterMap_cons]
      cases hr : lookupRecord c t with
      | none =>
          simp only [hr]
          exact ih acc hrest fun u hu p hp =>
            hacc u (List.mem_cons_of_mem t hu) p hp
      | some r =>
          simp only [hr]
          have hany : (acc.any fun p => p.1 == t) = false := by
            rw [List.any_eq_false]
            intro p hp
            simpa using hacc t (List.mem_cons_self t rest) p hp
          have hins : dict_insert acc t r.labels = acc ++ [(t, r.labels)] := by
            rw [dict_insert, hany]
            simp
          rw [hins, ih (acc ++ [(t, r.labels)]) hrest ?_]
          · simp
          · intro u hu p hp
            rcases List.mem_append.mp hp with hpacc | hpnew
            · exact hacc u (List.mem_cons_of_mem t hu) p hpacc
            · have hpeq : p = (t, r.labels) := by simpa using hpnew
              rw [hpeq]
              intro hcontra
              apply hnotmem
              rw [show t = u from hcontra]
              exact hu

lemma lookup_export_filterMap (c : Corpus) (ts : List String) (t : String)
    (r : SceneRecord) (ht : t ∈ ts) (hr : lookupRecord c t = some r) :
    (ts.filterMap
        (fun u => (lookupRecord c u).map (fun v => (u, v.labels)))).lookup t
      = some r.labels := by
  induction ts with
  | nil => cases ht
  | cons u rest ih =>
      rw [List.filterMap_cons]
      by_cases hu : t = u
      · subst hu
        rw [hr]
        exact lookup_cons_eq (t, r.labels) _
      · have ht' : t ∈ rest := (List.mem_cons.mp ht).resolve_left hu
        cases hcase : lookupRecord c u with
        | none => exact ih ht'
        | some v =>
            rw [Option.map_some']
            rw [lookup_cons_ne (u, v.labels) _ hu]
            exact ih ht'

/-- C9: the exported mapping lists exactly the requested tokens that are
present in the corpus (absent tokens are silently skipped), in request
order, each mapped to that record's label list; omitting the token list
exports every corpus token; and looking an exported token up in the output
reproduces the record's `labels` field. -/
theorem export_labels_only_spec (c : Corpus) (ts : List String)
    (hts : ts.Nodup) (hnd : (scene_tokens c).Nodup) :
    export_labels_only c (some ts)
        = ts.filterMap
            (fun t => (lookupRecord c t).map (fun r => (t, r.labels)))
    ∧ export_labels_only c none
        = (scene_tokens c).filterMap
            (fun t => (lookupRecord c t).map (fun r => (t, r.labels)))
    ∧ (∀ t r, t ∈ ts → lookupRecord c t = some r →
        (export_labels_only c (some ts)).lookup t = some r.labels) := by
  have hsome : export_labels_only c (some ts)
      = ts.filterMap
          (fun t => (lookupRecord c t).map (fun r => (t, r.labels))) := by
    rw [export_labels_only, Option.getD_some,
      export_foldl_eq c ts [] hts (by simp), List.nil_append]
  refine ⟨hsome, ?_, ?_⟩
  · rw [export_labels_only, Option.getD_none,
      export_foldl_eq c (scene_tokens c) [] hnd (by simp), List.nil_append]
  · intro t r ht hr
    rw [hsome]
    exact lookup_export_filterMap c ts t r ht hr

/-! ## Concrete instantiations of the conditional theorems -/

theorem split_is_partition_witness :
    ∃ train val test,
      split_dataset (fun (_ : Unit) l => l) (fun _ => ()) () (some 1)
          exCorpus 1 0 0 = .ok (train, val, test)
      ∧ train.length + val.length + test.length = exCorpus.length
      ∧ train.Disjoint val ∧ train.Disjoint test ∧ val.Disjoint test
      ∧ (∀ t, (t ∈ train ∨ t ∈ val ∨ t ∈ test) ↔
          t ∈ scene_tokens exCorpus) :=
  split_is_partition (fun (_ : Unit) l => l) (fun _ => ()) () (some 1)
    exCorpus 1 0 0 (List.Perm.refl _) (by decide) (by simp) (le_refl 0)
    (by simp)

theorem split_floor_slicing_witness :
    ∃ train val test,
      split_tokens ["a", "b"] (1/2) (1/2) 0 = .ok (train, val, test)
        ∧ train.length = 1 ∧ val.length = 1 ∧ test.length = 0 :=
  split_floor_slicing.2 ["a", "b"] rfl

theorem split_ratio_validation_witness :
    ∃ res, split_dataset (fun (_ : Unit) l => l) (fun _ => ()) () (some 1)
      exCorpus 1 0 0 = .ok res :=
  (split_ratio_validation (fun (_ : Unit) l => l) (fun _ => ()) () (some 1)
    exCorpus 1 0 0).2.1 (by simp)

theorem scenes_by_labels_semantics_witness :
    get_scenes_by_labels exCorpus ["INTERSECTION", "TRAFFIC_LIGHT"] "any"
        = .ok (exCorpus.filter (fun td =>
            decide (∃ l ∈ (["INTERSECTION", "TRAFFIC_LIGHT"] : List String),
              l ∈ td.2.labels)))
    ∧ get_scenes_by_labels exCorpus ["INTERSECTION", "TRAFFIC_LIGHT"] "all"
        = .ok (exCorpus.filter (fun td =>
            decide (∀ l ∈ (["INTERSECTION", "TRAFFIC_LIGHT"] : List String),
              l ∈ td.2.labels)))
    ∧ ((["INTERSECTION", "TRAFFIC_LIGHT"] : List String) = [] →
        get_scenes_by_labels exCorpus ["INTERSECTION", "TRAFFIC_LIGHT"] "all"
            = .ok exCorpus
        ∧ get_scenes_by_labels exCorpus ["INTERSECTION", "TRAFFIC_LIGHT"]
            "any" = .ok []) :=
  scenes_by_labels_semantics exCorpus ["INTERSECTION", "TRAFFIC_LIGHT"]
    (by decide)

theorem scenes_by_label_spec_witness :
    get_scenes_by_label exCorpus "NOT_A_LABEL"
      = .error (.invalidLabelError "NOT_A_LABEL" ALL_SCENES) :=
  (scenes_by_label_spec exCorpus "NOT_A_LABEL").1 (by decide)

theorem scenes_by_labels_unknown_mode_witness :
    get_scenes_by_labels exCorpus ["PED_CROSSING"] "ANY" = .ok [] :=
  scenes_by_labels_unknown_mode exCorpus ["PED_CROSSING"] "ANY" (by decide)
    (by decide) (by decide)

theorem sample_scenes_spec_witness :
    (sample_scenes (fun (_ : Unit) l k => l.take k) (fun _ => ()) ()
        (some 0) exCorpus 5).length = min 5 (scene_tokens exCorpus).length
    ∧ ((sample_scenes (fun (_ : Unit) l k => l.take k) (fun _ => ()) ()
        (some 0) exCorpus 5).map Prod.fst).Nodup
    ∧ (∀ p ∈ sample_scenes (fun (_ : Unit) l k => l.take k) (fun _ => ()) ()
        (some 0) exCorpus 5,
        p.1 ∈ scene_tokens exCorpus ∧ lookupRecord exCorpus p.1 = some p.2)
    ∧ sample_scenes (fun (_ : Unit) l k => l.take k) (fun _ => ()) ()
        (some 0) exCorpus 5
      = sample_scenes (fun (_ : Unit) l k => l.take k) (fun _ => ()) ()
        (some 0) exCorpus 5
    ∧ ((scene_tokens exCorpus).length < 5 →
        (sample_scenes (fun (_ : Unit) l k => l.take k) (fun _ => ()) ()
          (some 0) exCorpus 5).length = (scene_tokens exCorpus).length) :=
  sample_scenes_spec (fun (_ : Unit) l k => l.take k) (fun _ => ()) () () 0
    exCorpus 5 (by decide) (by decide) (by decide)

theorem export_labels_only_spec_witness :
    export_labels_only exCorpus (some ["a", "zzz"])
        = (["a", "zzz"] : List String).filterMap
            (fun t => (lookupRecord exCorpus t).map (fun r => (t, r.labels)))
    ∧ export_labels_only exCorpus none
        = (scene_tokens exCorpus).filterMap
            (fun t => (lookupRecord exCorpus t).map (fun r => (t, r.labels)))
    ∧ (∀ t r, t ∈ (["a", "zzz"] : List String) →
        lookupRecord exCorpus t = some r →
        (export_labels_only exCorpus (some ["a", "zzz"])).lookup t
          = some r.labels) :=
  export_labels_only_spec exCorpus ["a", "zzz"] (by decide) (by decide)

end NuScenesSR
